import Mathlib

/-!
Verification of the HAOS-kiosk REST control service (`rest_server.py`)
against its natural-language specification.

The development shallowly embeds the command-authorization engine
(`is_command_allowed`, `is_path_allowed`), the process-execution engine
(`execute_command`), the function-registry validation wrapper
(`register_function`), and the security middleware / dispatch pipeline
(`security_middleware`, `create_app`).  OS-dependent facilities
(`shutil.which`, `os.path.realpath`, the compiled whitelist regex, the
`ALLOW_ALL_USER_COMMANDS` flag) are parameters of an `Env` record; string
processing (`shlex.split`, `shlex.quote`, the separator split) is embedded
concretely, following the CPython semantics the source relies on.
-/

namespace HAOSKiosk

/-! ### Characters used by the string-processing embeddings -/

/-- The single-quote character. -/
def squoteChar : Char := Char.ofNat 39

/-- The double-quote character. -/
def dquoteChar : Char := Char.ofNat 34

/-- The backslash character. -/
def bslashChar : Char := Char.ofNat 92

/-- The backtick character. -/
def backtickChar : Char := Char.ofNat 96

/-- The opening parenthesis character. -/
def lparenChar : Char := Char.ofNat 40

/-- The opening curly-brace character. -/
def lbraceChar : Char := Char.ofNat 123

/-- The opening square-bracket character. -/
def lbrackChar : Char := Char.ofNat 91

/-- Whitespace characters stripped by Python `str.strip()`:
space, tab, newline, carriage return, vertical tab, form feed. -/
def pyWhitespace (c : Char) : Bool :=
  c = ' ' || c = Char.ofNat 9 || c = Char.ofNat 10 || c = Char.ofNat 13 ||
  c = Char.ofNat 11 || c = Char.ofNat 12

/-- Python `str.strip()`: drop leading and trailing whitespace. -/
def pyStrip (s : String) : String :=
  String.mk (((s.data.dropWhile pyWhitespace).reverse.dropWhile pyWhitespace).reverse)

/-- Model of Python `s.startswith(pre)` on the underlying character lists. -/
def strStartsWith (s pre : String) : Bool :=
  List.isPrefixOf pre.data s.data

/-! ### Model of shlex.split (POSIX mode, whitespace_split), as used at
`rest_server.py` line 209 -/

/-- Whitespace characters recognized by `shlex` (` \t\r\n`). -/
def shWhitespace (c : Char) : Bool :=
  c = ' ' || c = Char.ofNat 9 || c = Char.ofNat 13 || c = Char.ofNat 10

/-- Lexer states of the `shlex` word splitter: outside/inside a plain word,
inside single quotes, inside double quotes, after a backslash outside
quotes, after a backslash inside double quotes. -/
inductive ShState
  | norm
  | squote
  | dquote
  | escNorm
  | escDquote
deriving DecidableEq

/-- Core loop of `shlex.split` in POSIX mode.  `cur = none` means no token
has been started; `some t` holds the reversed characters of the token in
progress.  Returns `none` on a lexing error (unclosed quotation or a
trailing escape character), mirroring the `ValueError` raised by `shlex`. -/
def shlexAux : List Char → ShState → Option (List Char) → List String → Option (List String)
  | [], ShState.norm, cur, acc =>
    match cur with
    | some t => some (acc ++ [String.mk t.reverse])
    | none => some acc
  | [], _, _, _ => none
  | c :: rest, ShState.norm, cur, acc =>
    if shWhitespace c then
      match cur with
      | some t => shlexAux rest ShState.norm none (acc ++ [String.mk t.reverse])
      | none => shlexAux rest ShState.norm none acc
    else if c = squoteChar then shlexAux rest ShState.squote (some (cur.getD [])) acc
    else if c = dquoteChar then shlexAux rest ShState.dquote (some (cur.getD [])) acc
    else if c = bslashChar then shlexAux rest ShState.escNorm (some (cur.getD [])) acc
    else shlexAux rest ShState.norm (some (c :: cur.getD [])) acc
  | c :: rest, ShState.squote, cur, acc =>
    if c = squoteChar then shlexAux rest ShState.norm cur acc
    else shlexAux rest ShState.squote (some (c :: cur.getD [])) acc
  | c :: rest, ShState.dquote, cur, acc =>
    if c = dquoteChar then shlexAux rest ShState.norm cur acc
    else if c = bslashChar then shlexAux rest ShState.escDquote cur acc
    else shlexAux rest ShState.dquote (some (c :: cur.getD [])) acc
  | c :: rest, ShState.escNorm, cur, acc =>
    shlexAux rest ShState.norm (some (c :: cur.getD [])) acc
  | c :: rest, ShState.escDquote, cur, acc =>
    if c = dquoteChar || c = bslashChar then
      shlexAux rest ShState.dquote (some (c :: cur.getD [])) acc
    else
      shlexAux rest ShState.dquote (some (c :: bslashChar :: cur.getD [])) acc

/-- Model of `shlex.split(s)`: `none` models the `ValueError` caught at
`rest_server.py` line 213. -/
def shlexSplit (s : String) : Option (List String) :=
  shlexAux s.data ShState.norm none []

/-! ### Model of the separator split (`rest_server.py` lines 132-133) -/

/-- Two-character separators of `SEPARATORS`, tried first because the
alternation is sorted by decreasing length: `&&`, `||`, `$(`, oh-brace
substitution, `[[`, `((`. -/
def isTwoSep (a b : Char) : Bool :=
  (a = '&' && b = '&') || (a = '|' && b = '|') ||
  (a = '$' && b = lparenChar) || (a = '$' && b = lbraceChar) ||
  (a = lbrackChar && b = lbrackChar) || (a = lparenChar && b = lparenChar)

/-- One-character separators of `SEPARATORS`: `;`, `|`, `&`, backtick,
opening parenthesis, opening brace. -/
def isOneSep (c : Char) : Bool :=
  c = ';' || c = '|' || c = '&' || c = backtickChar || c = lparenChar || c = lbraceChar

/-- Splitting on `SEP_REGEX`: scan left to right, matching a two-character
separator in preference to a one-character one, cutting the string at each
match (fragments may be empty, as with `re.split`). -/
def sepSplitAux : List Char → List Char → List String → List String
  | [], cur, acc => acc ++ [String.mk cur.reverse]
  | a :: b :: rest, cur, acc =>
    if isTwoSep a b then sepSplitAux rest [] (acc ++ [String.mk cur.reverse])
    else if isOneSep a then sepSplitAux (b :: rest) [] (acc ++ [String.mk cur.reverse])
    else sepSplitAux (b :: rest) (a :: cur) acc
  | [a], cur, acc =>
    if isOneSep a then (acc ++ [String.mk cur.reverse]) ++ [""]
    else acc ++ [String.mk (a :: cur).reverse]

/-- Model of `SEP_REGEX.split(command_str)`. -/
def sepSplit (s : String) : List String :=
  sepSplitAux s.data [] []

/-! ### Program-name extraction (`rest_server.py` lines 201-214) -/

/-- The loop body of `is_command_allowed` that collects the first token of
every nonempty fragment; `programs` is a Python `set`, modelled as a
duplicate-free list (the membership check makes insertion idempotent). -/
def extractPrograms (s : String) : List String :=
  (sepSplit s).foldl
    (fun acc part =>
      let p := pyStrip part
      if p.isEmpty then acc
      else
        match shlexSplit p with
        | none => acc
        | some [] => acc
        | some (t :: _) => if acc.contains t then acc else acc ++ [t])
    []

/-! ### Policy environment -/

/-- Constant `ALLOWED_PATHS` (`rest_server.py` line 89). -/
def ALLOWED_PATHS : List String := ["/bin", "/usr/bin", "/usr/local/bin"]

/-- Matcher `COMPILED_BLACKLIST_REGEX.fullmatch` (`rest_server.py` lines 106-117):
a fixed alternation of literal names together with `python[\d.]+`. -/
def blacklistMatch (s : String) : Bool :=
  s ∈ (["ash", "bash", "sh", "su", "env", "exec", "kill", "killall", "pkill",
        "cp", "chmod", "chown", "dd", "ln", "mv", "rm", "tar",
        "mount", "umount", "curl", "nc", "wget", "find", "xargs"] : List String)
  || (strStartsWith s "python" &&
      (let t := s.drop 6
       decide (0 < t.length) && t.data.all (fun c => c.isDigit || c = '.')))

/-- The matcher substituted when `COMMAND_WHITELIST_REGEX` fails to
compile: `re.compile(r"(?!)")` matches nothing (`rest_server.py` line
102). -/
def matchNothing : String → Bool := fun _ => false

/-- Startup selection of the whitelist matcher (`rest_server.py` lines
95-102) for a nonempty configured pattern: a successfully compiled pattern
is used as is (`some m`), a pattern rejected by `re.compile` (`none`) is
replaced by the matcher that matches nothing. -/
def whitelistSetup : Option (String → Bool) → (String → Bool)
  | some m => m
  | none => matchNothing

/-- The ambient configuration and operating-system services consulted by
the authorization engine: the `ALLOW_ALL_USER_COMMANDS` flag, the compiled
whitelist matcher (`none` when no whitelist is configured), the compiled
blacklist matcher, `shutil.which` and `os.path.realpath`. -/
structure Env where
  allowAll : Bool
  whitelist : Option (String → Bool)
  blacklist : String → Bool
  which : String → Option String
  realpath : String → String

/-- Embedding of `is_path_allowed` (`rest_server.py` lines 185-191): the symlink-resolved
path must start with an allowed directory followed by a slash. -/
def is_path_allowed (env : Env) (prog_path : String) : Bool :=
  ALLOWED_PATHS.any (fun allowed => strStartsWith (env.realpath prog_path) (allowed ++ "/"))

/-- The per-program loop of `is_command_allowed` (`rest_server.py` lines
219-241): resolve each program, apply the path restriction, then either the
whitelist (when configured, skipping the blacklist) or the blacklist. -/
def checkPrograms (env : Env) : List String → Bool × String
  | [] => (true, "Safe - Whitelisted")
  | prog :: rest =>
    let prog_path := (env.which prog).getD ""
    if prog_path = "" then (false, "Program not found: " ++ prog)
    else if !is_path_allowed env prog_path then
      (false, "Program not in allowed paths: " ++ prog_path)
    else
      match env.whitelist with
      | some wl =>
        if !wl prog then (false, "Program not in Whitelist: " ++ prog)
        else checkPrograms env rest
      | none =>
        if env.blacklist prog then (false, "Blacklisted program: " ++ prog)
        else checkPrograms env rest

/-- Embedding of `is_command_allowed` (`rest_server.py` lines 193-241). -/
def is_command_allowed (env : Env) (command_str : String) : Bool × String :=
  if env.allowAll then (true, "All commands allowed")
  else
    let programs := extractPrograms command_str
    if programs.isEmpty then (false, "No programs found")
    else checkPrograms env programs

/-- Model of `os.path.dirname` on POSIX paths: the text before the final slash, with
trailing slashes stripped unless the head is all slashes.  This renders the
specification notion of the "containing directory" of a resolved path. -/
def dirname (p : String) : String :=
  let rev := p.data.reverse
  let head := rev.dropWhile (fun c => c ≠ '/')
  if head.isEmpty then ""
  else if head.all (fun c => c = '/') then String.mk head.reverse
  else String.mk ((head.dropWhile (fun c => c = '/')).reverse)

/-! ### Model of execute_command (`rest_server.py` lines 249-324) -/

/-- Characters `shlex.quote` leaves unquoted: word characters and the
punctuation at-sign, percent, plus, equals, colon, comma, dot, slash,
dash. -/
def quoteSafeChar (c : Char) : Bool :=
  c.isAlphanum || c = '_' || c = '@' || c = '%' || c = '+' || c = '=' ||
  c = ':' || c = ',' || c = '.' || c = '/' || c = '-'

/-- Model of `shlex.quote`: the empty string becomes a pair of single quotes, a
fully safe string is returned unchanged, and anything else is wrapped in
single quotes with each embedded single quote replaced by the five-character
sequence quote, double quote, quote, double quote, quote. -/
def shQuote (s : String) : String :=
  if s.isEmpty then String.mk [squoteChar, squoteChar]
  else if s.data.all quoteSafeChar then s
  else
    String.mk
      ([squoteChar] ++
       s.data.foldr
         (fun c acc =>
           if c = squoteChar then
             squoteChar :: dquoteChar :: squoteChar :: dquoteChar :: squoteChar :: acc
           else c :: acc)
         [] ++
       [squoteChar])

/-- The regex search at `rest_server.py` line 267: a string needs a shell
if it contains a double quote, backtick, single quote or space, or a dollar
sign followed by a character other than an opening parenthesis. -/
def needsShellAux : List Char → Bool
  | [] => false
  | c :: rest =>
    if c = dquoteChar || c = backtickChar || c = squoteChar || c = ' ' then true
    else if c = '$' then
      match rest with
      | [] => false
      | d :: _ => if d ≠ lparenChar then true else needsShellAux rest
    else needsShellAux rest

/-- Predicate `needs_shell` for a stripped command string. -/
def needs_shell (s : String) : Bool := needsShellAux s.data

/-- A command argument to `execute_command`: a raw shell-syntax string or an
explicit argument list. -/
inductive Command
  | str (s : String)
  | args (xs : List String)

/-- The string form a command is normalized to for the safety check
(`rest_server.py` lines 258-264): lists are `shlex.quote`-joined, strings
are stripped. -/
def cmdStr : Command → String
  | Command.args xs => String.intercalate " " (xs.map shQuote)
  | Command.str s => pyStrip s

/-- The slice of the result dictionary of `execute_command` the claims are
about: the `success` flag and the optional `error` entry. -/
structure CmdResult where
  success : Bool
  error : Option String
deriving DecidableEq

/-- Observable events of one `execute_command` call touching the shared
state: acquiring/releasing the concurrency semaphore, spawning the child,
adding/discarding the process handle in `_active_processes`, and the
kill/reap pair of the timeout path. -/
inductive Ev
  | acquire
  | spawn
  | addActive
  | kill
  | reap
  | removeActive
  | release
deriving DecidableEq

/-- How the awaited `proc.communicate()` resolves: normal completion with a
return code, expiry of `asyncio.wait_for`, or any other exception raised
while awaiting (internal error or external cancellation). -/
inductive Outcome
  | normal (returncode : Int)
  | timedOut
  | exn
deriving DecidableEq

/-- The event trace of the region from `async with _command_semaphore` to
the exit of `execute_command` (`rest_server.py` lines 278-324), and whether
the call returns a value or propagates an exception.  The `finally` block
discards the handle on every path, and leaving the `async with` block
releases the permit on every path, before control leaves the function. -/
def execBody : Outcome → List Ev × Bool
  | Outcome.normal _ =>
    ([Ev.acquire, Ev.spawn, Ev.addActive, Ev.removeActive, Ev.release], true)
  | Outcome.timedOut =>
    ([Ev.acquire, Ev.spawn, Ev.addActive, Ev.kill, Ev.reap, Ev.removeActive, Ev.release], true)
  | Outcome.exn =>
    ([Ev.acquire, Ev.spawn, Ev.addActive, Ev.removeActive, Ev.release], false)

/-- The value returned by the post-spawn part of `execute_command` (`none`
when the call propagates an exception instead of returning). -/
def bodyResult (tmo : Option Nat) : Outcome → Option CmdResult
  | Outcome.normal rc => some ⟨rc = 0, none⟩
  | Outcome.timedOut =>
    some ⟨false, some ("Timeout after " ++ toString (tmo.getD 0) ++ "s")⟩
  | Outcome.exn => none

/-- The shared state touched by the execution engine: the number of free
semaphore permits and the `_active_processes` set (as a list of process
identifiers). -/
structure ProcState where
  permits : Nat
  active : List Nat
deriving DecidableEq

/-- Effect of one event of a given process on the shared state. -/
def applyEv (pid : Nat) (st : ProcState) : Ev → ProcState
  | Ev.acquire => ⟨st.permits - 1, st.active⟩
  | Ev.addActive => ⟨st.permits, if st.active.contains pid then st.active else pid :: st.active⟩
  | Ev.removeActive => ⟨st.permits, st.active.erase pid⟩
  | Ev.release => ⟨st.permits + 1, st.active⟩
  | _ => st

/-- Replay the trace of one call over the shared state. -/
def runExec (pid : Nat) (o : Outcome) (st : ProcState) : ProcState :=
  ((execBody o).1).foldl (applyEv pid) st

/-- Embedding of `execute_command` (`rest_server.py` lines 249-324) up to the resolution
of the spawned process: normalization of the two command forms, the empty
checks, the authorization gate for `allow_command=False`, and then the
traced post-spawn region.  Early returns happen before the `async with`
block, so their event trace is empty. -/
def execute_command (env : Env) (cmd : Command) (tmo : Option Nat)
    ( allow_command : Bool) (o : Outcome) : Option CmdResult × List Ev :=
  match cmd with
  | Command.args [] => (some ⟨false, some "empty command list"⟩, [])
  | Command.args (x :: xs) =>
    let cs := cmdStr (Command.args (x :: xs))
    if allow_command then (bodyResult tmo o, (execBody o).1)
    else
      match is_command_allowed env cs with
      | (true, _) => (bodyResult tmo o, (execBody o).1)
      | (false, reason) => (some ⟨false, some ("Command blocked: " ++ reason)⟩, [])
  | Command.str s =>
    let cs := cmdStr (Command.str s)
    if cs = "" then (some ⟨false, some "empty command string"⟩, [])
    else if allow_command then (bodyResult tmo o, (execBody o).1)
    else
      match is_command_allowed env cs with
      | (true, _) => (bodyResult tmo o, (execBody o).1)
      | (false, reason) => (some ⟨false, some ("Command blocked: " ++ reason)⟩, [])

/-! ### Concurrency of `execute_command` calls

`_command_semaphore = asyncio.Semaphore(MAX_CONCURRENT_COMMANDS)`
(`rest_server.py` lines 179-180) bounds the region between
`async with _command_semaphore` and the end of the call.  The scheduler
below models any number of authorized calls interleaved by the event loop:
each call waits at the semaphore, then (holding a permit) spawns its child
process, and finally reaps it — by normal completion or by the
timeout-kill path — releasing the permit. -/

/-- Constant `MAX_CONCURRENT_COMMANDS` (`rest_server.py` line 80). -/
def MAX_CONCURRENT_COMMANDS : Nat := 5

/-- Lifecycle phase of one `execute_command` call that passed the
authorization gate: queued at the semaphore, holding a permit but not yet
spawned, running a live child process, or finished (process reaped and
permit released). -/
inductive Phase
  | waiting
  | holding
  | running
  | finished
deriving DecidableEq

/-- Scheduler state: free permits of `_command_semaphore` and the phase of
every submitted call. -/
structure SchedState where
  permits : Nat
  phases : List Phase
deriving DecidableEq

/-- One event-loop step: call `i` acquires a permit (only possible when one
is free), spawns its child process, or reaps it (normal exit or
timeout-kill — both release the permit on exit of the `async with`
block). -/
inductive SchedStep : SchedState → SchedState → Prop
  | acquire (s : SchedState) (i : Nat)
      (h : s.phases[i]? = some Phase.waiting) (hp : 0 < s.permits) :
      SchedStep s ⟨s.permits - 1, s.phases.set i Phase.holding⟩
  | spawn (s : SchedState) (i : Nat)
      (h : s.phases[i]? = some Phase.holding) :
      SchedStep s ⟨s.permits, s.phases.set i Phase.running⟩
  | finish (s : SchedState) (i : Nat)
      (h : s.phases[i]? = some Phase.running) :
      SchedStep s ⟨s.permits + 1, s.phases.set i Phase.finished⟩

/-- Initial state for `n` submitted calls: all permits free, every call
queued. -/
def initState (n : Nat) : SchedState :=
  ⟨MAX_CONCURRENT_COMMANDS, List.replicate n Phase.waiting⟩

/-- States the event loop can reach from `n` submitted calls. -/
def SchedReachable (n : Nat) (s : SchedState) : Prop :=
  Relation.ReflTransGen SchedStep (initState n) s

/-- Number of calls currently holding a permit without a spawned process. -/
def countHolding (s : SchedState) : Nat :=
  s.phases.countP (fun p => p = Phase.holding)

/-- Number of concurrently executing child processes. -/
def countRunning (s : SchedState) : Nat :=
  s.phases.countP (fun p => p = Phase.running)

/-! ### Function registry and validation wrapper
(`register_function`, `rest_server.py` lines 345-426) -/

/-- JSON-ish parameter values of a request payload. -/
inductive Val
  | vNull
  | vBool (b : Bool)
  | vInt (n : Int)
  | vStr (s : String)
deriving DecidableEq

/-- A request payload or bound-argument dictionary: keys with values. -/
abbrev Params := List (String × Val)

/-- Test `isinstance(raw, int)` — in Python a `bool` is an `int`. -/
def isIntVal : Val → Bool
  | Val.vInt _ => true
  | Val.vBool _ => true
  | _ => false

/-- Integer value of a Python `int` (with `True = 1`, `False = 0`). -/
def intOf : Val → Int
  | Val.vInt n => n
  | Val.vBool b => if b then 1 else 0
  | _ => 0

/-- A validator entry: the test plus the optional custom error message
(`ValidatorSpec`, `rest_server.py` lines 334-337). -/
structure ValidatorSpec where
  test : Val → Bool
  err : Option String

/-- An endpoint contract as captured by `register_function`: full operation
name (the module never sets a prefix, so it equals the registered name),
required and optional parameter names, and named validators. -/
structure Contract where
  fullname : String
  required : List String
  optional : List String
  validators : List (String × ValidatorSpec)

/-- The custom-validation loop (`rest_server.py` lines 391-404): the first
configured validator whose key is present and whose test fails yields its
error message. -/
def firstFailingValidator (data : Params) : List (String × ValidatorSpec) → Option String
  | [] => none
  | (key, spec) :: rest =>
    match data.lookup key with
    | none => firstFailingValidator data rest
    | some v =>
      if spec.test v then firstFailingValidator data rest
      else some (spec.err.getD (key ++ " is invalid"))

/-- Stamping of the operation name (`rest_server.py` line 414). -/
def stampName (c : Contract) (data : Params) : Params :=
  data ++ [("_cmd_name", Val.vStr c.fullname)]

/-- The validation part of the wrapper produced by `register_function`
(`rest_server.py` lines 382-414): missing required keys, unknown keys (with
`timeout` always tolerated), custom validators, then the `timeout`
normalization that rejects any non-`None` value that is not a positive
integer.  `Except.error` models the raised `ValueError`. -/
def wrapperValidate (c : Contract) (data : Params) : Except String Params :=
  let missing := c.required.filter (fun k => (data.lookup k).isNone)
  if !missing.isEmpty then
    Except.error (c.fullname ++ ": Missing required parameters: " ++
      String.intercalate ", " missing)
  else
    let allowed := c.required ++ c.optional
    let extra := (data.map Prod.fst).filter
      (fun k => !allowed.contains k && k ≠ "timeout")
    if !extra.isEmpty then
      Except.error (c.fullname ++ ": Unknown parameters: " ++
        String.intercalate ", " extra)
    else
      match firstFailingValidator data c.validators with
      | some msg => Except.error (c.fullname ++ ": " ++ msg)
      | none =>
        match data.lookup "timeout" with
        | none => Except.ok (stampName c data)
        | some raw =>
          if raw = Val.vNull then Except.ok (stampName c data)
          else if isIntVal raw && 0 < intOf raw then Except.ok (stampName c data)
          else Except.error (c.fullname ++ ": Timeout must be int > 0 or omitted")

/-! ### HTTP layer: route handlers, security middleware, dispatch
(`rest_server.py` lines 556-632) -/

/-- Body of an HTTP response: a JSON value (as returned by
`web.json_response(result)`), the failure envelope with `success` and
`error` fields, or the plain aiohttp error page produced when an exception
escapes the middleware. -/
inductive RespBody
  | jsonVal (v : Val)
  | envelope (success : Bool) (error : String)
  | serverErrorPage
deriving DecidableEq

/-- An HTTP response: status code and body. -/
structure Response where
  status : Nat
  body : RespBody
deriving DecidableEq

/-- Handler `make_handler` (`rest_server.py` lines 603-610): run the registered
wrapper on the JSON payload; a normal result is returned with status 200,
any exception — including the `ValueError` of the wrapper — is caught and
returned as a 500 failure envelope. -/
def routeHandle (c : Contract) (f : Params → Val) (payload : Params) : Response :=
  match wrapperValidate c payload with
  | Except.ok data => ⟨200, RespBody.jsonVal (f data)⟩
  | Except.error e => ⟨500, RespBody.envelope false e⟩

/-- The catch-all handler registered at `rest_server.py` lines 624-630. -/
def not_found (path : String) : Response :=
  ⟨404, RespBody.envelope false ("Endpoint not found: " ++ path)⟩

/-- Constant `PROTECTED_COMMANDS` (`rest_server.py` lines 432-436). -/
def PROTECTED_COMMANDS : List String := ["run_command", "run_commands", "xset"]

/-- The loopback addresses accepted at `rest_server.py` line 582. -/
def loopbackAddrs : List String := ["127.0.0.1", "::1", "localhost"]

/-- An HTTP request: peer address (`request.remote`, absent when unknown),
headers, path, and the JSON body already mapped onto a parameter set. -/
structure Request where
  remote : Option String
  headers : List (String × String)
  path : String
  payload : Params

/-- Server configuration and registry: `REST_BEARER_TOKEN` (already
normalized so that an empty variable is `none`), the `FunctionRegistry`
as contracts keyed by full name, and the underlying handler bodies. -/
structure ServerCfg where
  bearer : Option String
  routes : List (String × Contract)
  impl : String → Params → Val

/-- Route resolution of the application built by `create_app`: one route
per registered name at slash-name, then the health route, then the
catch-all. -/
inductive RouteTarget
  | op (fullname : String) (c : Contract)
  | health
  | unregistered
def resolveRoute (cfg : ServerCfg) (path : String) : RouteTarget :=
  match cfg.routes.find? (fun r => "/" ++ r.1 = path) with
  | some r => RouteTarget.op r.1 r.2
  | none => if path = "/health" then RouteTarget.health else RouteTarget.unregistered

/-- How the middleware answers a request. The constructors map one-to-one
onto the exits of `security_middleware` (`rest_server.py` lines 556-588):
the 401 bearer-token rejection, the uncaught `AttributeError` raised by
`getattr(handler, "cmd_name")` on a handler without that attribute (the
health lambda and the catch-all `not_found` never set it), the 403
protected-command rejection, and dispatch to the matched route handler. -/
inductive ServeResult
  | authReject
  | attrError
  | policyReject
  | dispatched (fullname : String) (r : Response)
deriving DecidableEq

/-- The part of the middleware after the bearer-token gate:
`getattr(handler, "cmd_name")` (AttributeError for the health and catch-all
handlers), the protected-command check, then `await handler(request)`. -/
def serveAfterAuth (cfg : ServerCfg) (req : Request) : ServeResult :=
  match resolveRoute cfg req.path with
  | RouteTarget.op name c =>
    if PROTECTED_COMMANDS.contains name &&
       !loopbackAddrs.contains (req.remote.getD "unknown") &&
       cfg.bearer.isNone then
      ServeResult.policyReject
    else
      ServeResult.dispatched name (routeHandle c (cfg.impl name) req.payload)
  | _ => ServeResult.attrError

/-- Middleware `security_middleware` followed by the route handler: when a bearer
token is configured, the `Authorization` header (defaulted to the empty
string) must equal `Bearer ` followed by the token, else 401; then the
protection check and dispatch. -/
def serve (cfg : ServerCfg) (req : Request) : ServeResult :=
  match cfg.bearer with
  | some tok =>
    if (req.headers.lookup "Authorization").getD "" ≠ "Bearer " ++ tok then
      ServeResult.authReject
    else serveAfterAuth cfg req
  | none => serveAfterAuth cfg req

/-- HTTP status of a middleware answer: 401 for the bearer rejection, 500
for the uncaught `AttributeError`, 403 for the protected-command rejection,
and the handler status otherwise. -/
def statusOf : ServeResult → Nat
  | ServeResult.authReject => 401
  | ServeResult.attrError => 500
  | ServeResult.policyReject => 403
  | ServeResult.dispatched _ r => r.status

/-! ### Derived notions and concrete instances used by the claims -/

/-- A program name that resolves and whose resolved path passes the
path restriction of the engine — the premise of the whitelist claim. -/
def resolvesAllowed (env : Env) (p : String) : Prop :=
  (env.which p).getD "" ≠ "" ∧ is_path_allowed env ((env.which p).getD "") = true

/-- The whitelist matcher of a configuration whose pattern matches every
name (for example the configured pattern `.*`). -/
def wlAll : String → Bool := fun _ => true

/-- A whitelist matcher accepting exactly the name `ls`. -/
def wlOnlyLs : String → Bool := fun s => s = "ls"

/-- Deployment where no configured program exists on the search path. -/
def envNoWhich : Env :=
  ⟨false, some wlAll, blacklistMatch, fun _ => none, id⟩

/-- Deployment where `ls` resolves to the standard binary. -/
def envLs : Env :=
  ⟨false, some wlOnlyLs, blacklistMatch,
   fun p => if p = "ls" then some "/bin/ls" else none, id⟩

/-- Deployment where `x` resolves to a binary in a subdirectory of an
allowed directory. -/
def envSubdir : Env :=
  ⟨false, some wlAll, blacklistMatch,
   fun p => if p = "x" then some "/usr/bin/sub/x" else none, id⟩

/-- Deployment whose configured whitelist pattern failed to compile, so
startup substituted the match-nothing pattern, with `ls` resolvable. -/
def envBadPattern : Env :=
  ⟨false, some (whitelistSetup none), blacklistMatch,
   fun p => if p = "ls" then some "/bin/ls" else none, id⟩

/-- The contract of `display_on` (`rest_server.py` line 471): no required
parameter, optional `timeout`, validated as `None` or a non-negative
integer. -/
def displayOnContract : Contract :=
  ⟨"display_on", [], ["timeout"],
   [("timeout", ⟨fun v => v = Val.vNull || (isIntVal v && 0 ≤ intOf v), none⟩)]⟩

/-- The contract of `run_command` (`rest_server.py` lines 524-525). -/
def runCommandContract : Contract :=
  ⟨"run_command", ["cmd"], ["cmd_timeout"],
   [("cmd_timeout", ⟨fun v => v = Val.vNull || (isIntVal v && 0 < intOf v), none⟩)]⟩

/-- A contract registered with `required=["x"]` as in the round-trip
property. -/
def xRequiredContract : Contract := ⟨"opx", ["x"], [], []⟩

/-- Server with a bearer token configured and `run_command` registered. -/
def cfgBearer : ServerCfg :=
  ⟨some "sekrit", [("run_command", runCommandContract)], fun _ _ => Val.vNull⟩

/-- Server without a bearer token, with `run_command` registered. -/
def cfgNoBearer : ServerCfg :=
  ⟨none, [("run_command", runCommandContract)], fun _ _ => Val.vNull⟩

/-- Server without a bearer token, with the `required=["x"]` operation
registered. -/
def cfgOpx : ServerCfg :=
  ⟨none, [("opx", xRequiredContract)], fun _ _ => Val.vNull⟩

/-- A non-loopback request to `run_command` without an `Authorization`
header. -/
def reqNoAuth : Request :=
  ⟨some "192.168.1.50", [], "/run_command", [("cmd", Val.vStr "ls")]⟩

/-- A loopback request to the `required=["x"]` operation supplying only an
unrelated key `y`. -/
def reqMissingX : Request :=
  ⟨some "127.0.0.1", [], "/opx", [("y", Val.vStr "1")]⟩

/-- A loopback request to a path with no registered operation. -/
def reqUnknownPath : Request := ⟨some "127.0.0.1", [], "/nope", []⟩

/-! ## Authorization-engine lemmas -/

/-- With a whitelist configured, the engine accepts a program list exactly
when every listed program matches the whitelist, provided every listed
program resolves into an allowed directory; the blacklist branch is never
reached. -/
theorem checkPrograms_whitelist_iff (env : Env) (wl : String → Bool)
    (hwl : env.whitelist = some wl) :
    ∀ ps : List String, (∀ p ∈ ps, resolvesAllowed env p) →
      (((checkPrograms env ps).1 = true) ↔ ∀ p ∈ ps, wl p = true) := by
  intro ps
  induction ps with
  | nil => intro _; simp [checkPrograms]
  | cons p rest ih =>
    intro hres
    obtain ⟨hw, hpa⟩ := hres p (by simp)
    have hrest := fun q hq => hres q (List.mem_cons_of_mem p hq)
    simp only [checkPrograms, hwl]
    rw [if_neg hw, hpa]
    by_cases hwp : wl p = true
    · simp [hwp, ih hrest]
    · simp [hwp]

/-- A program that does not resolve, or resolves outside the allowed
directories, makes the engine reject any program list containing it. -/
theorem checkPrograms_denies_bad (env : Env) (p : String)
    (hbad : (env.which p).getD "" = "" ∨
            is_path_allowed env ((env.which p).getD "") = false) :
    ∀ ps : List String, p ∈ ps → (checkPrograms env ps).1 = false := by
  intro ps
  induction ps with
  | nil => intro h; cases h
  | cons q rest ih =>
    intro hmem
    simp only [checkPrograms]
    by_cases hq1 : (env.which q).getD "" = ""
    · simp [hq1]
    · rw [if_neg hq1]
      by_cases hq2 : is_path_allowed env ((env.which q).getD "") = true
      · rw [hq2]
        have hqp : p ≠ q := by
          intro he
          subst he
          rcases hbad with hb | hb
          · exact hq1 hb
          · rw [hq2] at hb; cases hb
        have hmem2 : p ∈ rest := by
          rcases List.mem_cons.mp hmem with he | h
          · exact absurd he hqp
          · exact h
        cases hwl : env.whitelist with
        | some wl =>
          by_cases hwq : wl q = true
          · simp [hwq, ih hmem2]
          · simp [hwq]
        | none =>
          by_cases hbq : env.blacklist q = true
          · simp [hbq]
          · simp [hbq, ih hmem2]
      · have hq2f : is_path_allowed env ((env.which q).getD "") = false :=
          Bool.eq_false_iff.mpr hq2
        simp [hq2f]

/-- With the match-nothing whitelist the engine rejects every nonempty
program list at its first program. -/
theorem checkPrograms_matchNothing (env : Env)
    (hwl : env.whitelist = some matchNothing) (p : String) (rest : List String) :
    (checkPrograms env (p :: rest)).1 = false := by
  simp only [checkPrograms, hwl, matchNothing]
  by_cases hq1 : (env.which p).getD "" = ""
  · simp [hq1]
  · rw [if_neg hq1]
    by_cases hq2 : is_path_allowed env ((env.which p).getD "") = true
    · simp [hq2]
    · simp [Bool.eq_false_iff.mpr hq2]

/-! ## Claim C10 -/

/-- C10: if the configured whitelist pattern fails to compile as a regular
expression, startup substitutes a matcher that matches nothing
(`whitelistSetup none`), so that while the override flag is unset, the
authorization engine returns Denied for every command. -/
theorem C10_invalid_whitelist_blocks_everything (env : Env) (cmd : String)
    (hov : env.allowAll = false)
    (hwl : env.whitelist = some (whitelistSetup none)) :
    (is_command_allowed env cmd).1 = false := by
  have hwl2 : env.whitelist = some matchNothing := hwl
  simp only [is_command_allowed, hov, Bool.false_eq_true, if_false]
  cases h : extractPrograms cmd with
  | nil => simp [h]
  | cons p rest => simp [h, checkPrograms_matchNothing env hwl2 p rest]

/-- Witness for C10: in the deployment with a failed whitelist compile the
command `ls` is denied even though `ls` resolves to `/bin/ls`. -/
theorem C10_invalid_whitelist_blocks_everything_witness :
    (is_command_allowed envBadPattern "ls").1 = false :=
  C10_invalid_whitelist_blocks_everything envBadPattern "ls" rfl rfl

/-! ## Claim C2 -/

/-- Counterexample to C2 as stated: with a whitelist configured and the
override unset, the empty command extracts no program names, so the
premise "every extracted program name resolves inside an allowed
directory" and the right-hand side "every program name fully matches the
whitelist" hold vacuously, yet the engine returns Denied ("No programs
found") rather than Allowed. -/
theorem C2_counterexample :
    envNoWhich.whitelist = some wlAll ∧
    (∀ p ∈ extractPrograms "", resolvesAllowed envNoWhich p) ∧
    ¬ (((is_command_allowed envNoWhich "").1 = true) ↔
       (∀ p ∈ extractPrograms "", wlAll p = true)) := by
  have h : extractPrograms "" = ([] : List String) := rfl
  refine ⟨rfl, ?_, ?_⟩
  · intro p hp
    rw [h] at hp
    cases hp
  · rw [h]
    have h2 : (is_command_allowed envNoWhich "").1 = false := rfl
    simp [h2]

/-- C2 as amended: when a whitelist matcher is configured and the override
flag is unset, for every command with at least one extracted program name,
all of which resolve inside an allowed directory, the engine returns
Allowed iff every extracted program name fully matches the whitelist —
irrespective of the blacklist, which is an arbitrary field of `env` here
and is never consulted. -/
theorem C2_whitelist_authoritative (env : Env) (wl : String → Bool) (cmd : String)
    (hov : env.allowAll = false) (hwl : env.whitelist = some wl)
    (hne : extractPrograms cmd ≠ [])
    (hres : ∀ p ∈ extractPrograms cmd, resolvesAllowed env p) :
    ((is_command_allowed env cmd).1 = true) ↔
      (∀ p ∈ extractPrograms cmd, wl p = true) := by
  simp only [is_command_allowed, hov, Bool.false_eq_true, if_false]
  rw [if_neg (by simpa using hne)]
  exact checkPrograms_whitelist_iff env wl hwl (extractPrograms cmd) hres

/-- Witness for C2 as amended: with whitelist accepting exactly `ls` and
`ls` resolving to `/bin/ls`, the command `ls` satisfies the premises and
the equivalence holds. -/
theorem C2_whitelist_authoritative_witness :
    ((is_command_allowed envLs "ls").1 = true) ↔
      (∀ p ∈ extractPrograms "ls", wlOnlyLs p = true) :=
  C2_whitelist_authoritative envLs wlOnlyLs "ls" rfl rfl
    (by decide)
    (by
      intro p hp
      have h : extractPrograms "ls" = ["ls"] := rfl
      rw [h] at hp
      simp only [List.mem_singleton] at hp
      subst hp
      exact ⟨by decide, by decide⟩)

/-! ## Claim C5 -/

/-- Counterexample to C5 as stated: in `envSubdir` the program `x`
resolves to `/usr/bin/sub/x`, whose containing directory `/usr/bin/sub` is
not one of the allowed directories, yet the engine returns Allowed: the
code only requires an allowed directory to be a prefix of the resolved
path, so binaries in subdirectories of allowed directories pass. -/
theorem C5_counterexample :
    (envSubdir.which "x").getD "" = "/usr/bin/sub/x" ∧
    dirname (envSubdir.realpath "/usr/bin/sub/x") ∉ ALLOWED_PATHS ∧
    "x" ∈ extractPrograms "x" ∧
    (is_command_allowed envSubdir "x").1 = true := by
  refine ⟨rfl, by decide, ?_, rfl⟩
  have h : extractPrograms "x" = ["x"] := rfl
  rw [h]
  simp

/-- C5 as amended: for every program name extracted from a non-override
command, an unresolvable name yields Denied, and a resolved name yields
Denied unless the resolved path lies under one of the allowed directories
(an allowed directory followed by a slash is a prefix of the
symlink-resolved path — subdirectories included). -/
theorem C5_resolution_and_path_denies (env : Env) (cmd : String) (p : String)
    (hov : env.allowAll = false) (hp : p ∈ extractPrograms cmd)
    (hbad : (env.which p).getD "" = "" ∨
            is_path_allowed env ((env.which p).getD "") = false) :
    (is_command_allowed env cmd).1 = false := by
  simp only [is_command_allowed, hov, Bool.false_eq_true, if_false]
  have hne : extractPrograms cmd ≠ [] := by
    intro h
    rw [h] at hp
    cases hp
  rw [if_neg (by simpa using hne)]
  exact checkPrograms_denies_bad env p hbad (extractPrograms cmd) hp

/-- Witness for C5 as amended: in the deployment where nothing resolves,
the command `foo` is denied because `foo` is not found. -/
theorem C5_resolution_and_path_denies_witness :
    (is_command_allowed envNoWhich "foo").1 = false :=
  C5_resolution_and_path_denies envNoWhich "foo" "foo" rfl
    (by
      have h : extractPrograms "foo" = ["foo"] := rfl
      rw [h]
      simp)
    (Or.inl rfl)

/-! ## Claim C1 -/

/-- C1: a command judged Denied by the authorization engine is answered by
`execute_command` (with `allow_command=False`, the untrusted path) with a
failure result carrying an error message, and with an empty event trace:
the semaphore is never acquired, no process is spawned, and nothing is
added to the active-process set. -/
theorem C1_denied_never_spawns (env : Env) (cmd : Command) (tmo : Option Nat)
    (o : Outcome) (reason : String)
    (hden : is_command_allowed env (cmdStr cmd) = (false, reason)) :
    ∃ msg, execute_command env cmd tmo false o = (some ⟨false, some msg⟩, []) := by
  cases cmd with
  | str s =>
    by_cases he : pyStrip s = ""
    · refine ⟨"empty command string", ?_⟩
      simp [execute_command, cmdStr, he]
    · refine ⟨"Command blocked: " ++ reason, ?_⟩
      have hc : cmdStr (Command.str s) = pyStrip s := rfl
      rw [hc] at hden
      simp [execute_command, cmdStr, he, hden]
  | args xs =>
    cases xs with
    | nil => exact ⟨"empty command list", rfl⟩
    | cons x rest =>
      refine ⟨"Command blocked: " ++ reason, ?_⟩
      simp [execute_command, cmdStr] at hden ⊢
      simp [hden]

/-- Witness for C1: in the deployment where nothing resolves, the denied
command `foo` produces a failure result and an empty trace. -/
theorem C1_denied_never_spawns_witness :
    ∃ msg, execute_command envNoWhich (Command.str "foo") none false Outcome.timedOut =
      (some ⟨false, some msg⟩, []) :=
  C1_denied_never_spawns envNoWhich (Command.str "foo") none Outcome.timedOut
    "Program not found: foo" (by decide)

/-! ## Claim C4 -/

/-- C4: on every exit path of the post-spawn region of `execute_command` —
normal completion, timeout expiry, or an internal exception after spawning
— the trace ends with discarding the process handle from the active set
followed by releasing the permit, and replaying the trace restores the
shared state: the spawned handle is gone from the active set and the permit
count is back to its value before the call. -/
theorem C4_release_on_every_path (o : Outcome) (pid : Nat) (st : ProcState)
    (hp : 0 < st.permits) (ha : st.active.contains pid = false) :
    (∃ pre, (execBody o).1 = pre ++ [Ev.removeActive, Ev.release]) ∧
    runExec pid o st = st := by
  have hperm : st.permits - 1 + 1 = st.permits := Nat.succ_pred_eq_of_pos hp
  have herase : (pid :: st.active).erase pid = st.active := List.erase_cons_head pid st.active
  have hmem : pid ∉ st.active := by simpa using ha
  obtain ⟨permits, active⟩ := st
  cases o with
  | normal rc =>
    refine ⟨⟨[Ev.acquire, Ev.spawn, Ev.addActive], rfl⟩, ?_⟩
    simp only [runExec, execBody, List.foldl, applyEv] at *
    simp [ha, hmem, herase, hperm]
  | timedOut =>
    refine ⟨⟨[Ev.acquire, Ev.spawn, Ev.addActive, Ev.kill, Ev.reap], rfl⟩, ?_⟩
    simp only [runExec, execBody, List.foldl, applyEv] at *
    simp [ha, hmem, herase, hperm]
  | exn =>
    refine ⟨⟨[Ev.acquire, Ev.spawn, Ev.addActive], rfl⟩, ?_⟩
    simp only [runExec, execBody, List.foldl, applyEv] at *
    simp [ha, hmem, herase, hperm]

/-- Witness for C4: the timeout path of a call with process id 7 starting
from five free permits and an empty active set. -/
theorem C4_release_on_every_path_witness :
    (∃ pre, (execBody Outcome.timedOut).1 = pre ++ [Ev.removeActive, Ev.release]) ∧
    runExec 7 Outcome.timedOut ⟨5, []⟩ = ⟨5, []⟩ :=
  C4_release_on_every_path Outcome.timedOut 7 ⟨5, []⟩ (by decide) (by decide)

/-! ## Scheduler lemmas for claim C3 -/

/-- Effect of `List.set` on `countP` when the overwritten element is
known. -/
theorem countP_set_elim {l : List Phase} {i : Nat} {a : Phase} (f : Phase → Bool)
    (h : l[i]? = some a) (b : Phase) :
    (l.set i b).countP f + (if f a then 1 else 0) =
      l.countP f + (if f b then 1 else 0) := by
  obtain ⟨hlen, hget⟩ := List.getElem?_eq_some.mp h
  have e := List.countP_set f l i b hlen
  rw [hget] at e
  have hmem : a ∈ l := List.getElem?_mem h
  by_cases hfa : f a = true
  · have hpos : 0 < l.countP f := List.countP_pos_iff.mpr ⟨a, hmem, hfa⟩
    by_cases hfb : f b = true <;> simp [hfa, hfb] at e ⊢ <;> omega
  · have hfa2 : f a = false := Bool.eq_false_iff.mpr hfa
    by_cases hfb : f b = true <;> simp [hfa2, hfb] at e ⊢ <;> omega

/-- The permit-accounting invariant: free permits plus calls holding a
permit (spawning or running) always total `MAX_CONCURRENT_COMMANDS`. -/
def schedInv (s : SchedState) : Prop :=
  s.permits + countHolding s + countRunning s = MAX_CONCURRENT_COMMANDS

/-- Every scheduler step preserves the permit-accounting invariant. -/
theorem schedStep_inv {s t : SchedState} (hst : SchedStep s t)
    (hinv : schedInv s) : schedInv t := by
  cases hst with
  | acquire i h hp =>
    have e1 := countP_set_elim (fun p => p = Phase.holding) h Phase.holding
    have e2 := countP_set_elim (fun p => p = Phase.running) h Phase.holding
    simp only [schedInv, countHolding, countRunning] at *
    simp at e1 e2
    omega
  | spawn i h =>
    have e1 := countP_set_elim (fun p => p = Phase.holding) h Phase.running
    have e2 := countP_set_elim (fun p => p = Phase.running) h Phase.running
    simp only [schedInv, countHolding, countRunning] at *
    simp at e1 e2
    omega
  | finish i h =>
    have e1 := countP_set_elim (fun p => p = Phase.holding) h Phase.finished
    have e2 := countP_set_elim (fun p => p = Phase.running) h Phase.finished
    simp only [schedInv, countHolding, countRunning] at *
    simp at e1 e2
    omega

/-- The permit-accounting invariant holds in every reachable state. -/
theorem schedReachable_inv {n : Nat} {s : SchedState}
    (h : SchedReachable n s) : schedInv s := by
  induction h with
  | refl =>
    simp [schedInv, initState, countHolding, countRunning, List.countP_replicate]
  | tail hab hbc ih => exact schedStep_inv hbc ih

/-- From a state with no free permit and no call in the spawning window, a
step either is a reap (some running call finishes) or changes neither the
permit count, the holding count, nor the phase of any waiting call. -/
theorem schedStep_blocked {s t : SchedState} (hst : SchedStep s t)
    (hperm : s.permits = 0) (hhold : countHolding s = 0) :
    (∃ j : Nat, s.phases[j]? = some Phase.running ∧ t.phases[j]? = some Phase.finished) ∨
    (t.permits = 0 ∧ countHolding t = 0 ∧
     ∀ i : Nat, s.phases[i]? = some Phase.waiting → t.phases[i]? = some Phase.waiting) := by
  cases hst with
  | acquire i h hp => omega
  | spawn i h =>
    exfalso
    have hmem : Phase.holding ∈ s.phases := List.getElem?_mem h
    have := List.countP_eq_zero.mp hhold Phase.holding hmem
    simp at this
  | finish i h =>
    left
    obtain ⟨hlen, _⟩ := List.getElem?_eq_some.mp h
    exact ⟨i, h, by simp [List.getElem?_set_self hlen]⟩

/-- A waiting call stays waiting along any step sequence from a state with
no free permit and no call in the spawning window, unless some running call
finishes along the way (in which case the sequence decomposes around that
reap step). -/
theorem waiting_until_finish {s s2 : SchedState}
    (hrt : Relation.ReflTransGen SchedStep s s2) (i : Nat) :
    (s.permits = 0 ∧ countHolding s = 0 ∧ s.phases[i]? = some Phase.waiting) →
    ((s2.permits = 0 ∧ countHolding s2 = 0 ∧ s2.phases[i]? = some Phase.waiting) ∨
     ∃ (t u : SchedState) (j : Nat), Relation.ReflTransGen SchedStep s t ∧ SchedStep t u ∧
       t.phases[j]? = some Phase.running ∧ u.phases[j]? = some Phase.finished ∧
       Relation.ReflTransGen SchedStep u s2) := by
  induction hrt with
  | refl => exact fun h => Or.inl h
  | tail hab hbc ih =>
    intro h
    rcases ih h with ⟨hp0, hh0, hw⟩ | ⟨t, u, j, h1, h2, h3, h4, h5⟩
    · rcases schedStep_blocked hbc hp0 hh0 with ⟨j, hj1, hj2⟩ | ⟨hp1, hh1, hkeep⟩
      · exact Or.inr ⟨_, _, j, hab, hbc, hj1, hj2, Relation.ReflTransGen.refl⟩
      · exact Or.inl ⟨hp1, hh1, hkeep i hw⟩
    · exact Or.inr ⟨t, u, j, h1, h2, h3, h4, h5.tail hbc⟩

/-! ## Claim C3 -/

/-- C3: in every reachable scheduler state the number of concurrently
executing child processes never exceeds `MAX_CONCURRENT_COMMANDS`;
when that bound is reached, a queued call stays blocked at permit
acquisition across any single step, and it can only be running in a later
state if, in between, some running call finished (completed or was
timeout-killed), releasing its permit. -/
theorem C3_bounded_concurrency (n : Nat) (s : SchedState)
    (hr : SchedReachable n s) :
    countRunning s ≤ MAX_CONCURRENT_COMMANDS ∧
    (countRunning s = MAX_CONCURRENT_COMMANDS →
      ∀ (i : Nat) (s2 : SchedState), s.phases[i]? = some Phase.waiting → SchedStep s s2 →
        s2.phases[i]? = some Phase.waiting) ∧
    (countRunning s = MAX_CONCURRENT_COMMANDS →
      ∀ (i : Nat) (s2 : SchedState), s.phases[i]? = some Phase.waiting →
        Relation.ReflTransGen SchedStep s s2 →
        s2.phases[i]? = some Phase.running →
        ∃ (t u : SchedState) (j : Nat), Relation.ReflTransGen SchedStep s t ∧ SchedStep t u ∧
          t.phases[j]? = some Phase.running ∧ u.phases[j]? = some Phase.finished ∧
          Relation.ReflTransGen SchedStep u s2) := by
  have hinv := schedReachable_inv hr
  refine ⟨by simp only [schedInv] at hinv; omega, ?_, ?_⟩
  · intro hfull i s2 hw hst
    have hp0 : s.permits = 0 := by simp only [schedInv] at hinv; omega
    have hh0 : countHolding s = 0 := by simp only [schedInv] at hinv; omega
    rcases schedStep_blocked hst hp0 hh0 with ⟨j, hj1, hj2⟩ | ⟨_, _, hkeep⟩
    · cases hst with
      | acquire i2 h hp => omega
      | spawn i2 h =>
        exfalso
        have hmem : Phase.holding ∈ s.phases := List.getElem?_mem h
        have := List.countP_eq_zero.mp hh0 Phase.holding hmem
        simp at this
      | finish i2 h =>
        have hne : i2 ≠ i := by
          intro he
          subst he
          rw [h] at hw
          cases hw
        simpa [List.getElem?_set_ne hne] using hw
    · exact hkeep i hw
  · intro hfull i s2 hw hrt hrun
    have hp0 : s.permits = 0 := by simp only [schedInv] at hinv; omega
    have hh0 : countHolding s = 0 := by simp only [schedInv] at hinv; omega
    rcases waiting_until_finish hrt i ⟨hp0, hh0, hw⟩ with ⟨_, _, hw2⟩ | hdec
    · rw [hrun] at hw2
      cases hw2
    · exact hdec

/-- Witness for C3: six submitted calls; after the first five acquire and
spawn, the reachable state has five running processes and call 5 queued;
call 5 is running three steps later, and the trace indeed decomposes
around the reap of call 0. -/
theorem C3_bounded_concurrency_witness :
    countRunning ⟨0, [Phase.running, Phase.running, Phase.running, Phase.running,
      Phase.running, Phase.waiting]⟩ ≤ MAX_CONCURRENT_COMMANDS ∧
    (∃ (t u : SchedState) (j : Nat),
      Relation.ReflTransGen SchedStep ⟨0, [Phase.running, Phase.running, Phase.running,
        Phase.running, Phase.running, Phase.waiting]⟩ t ∧
      SchedStep t u ∧
      t.phases[j]? = some Phase.running ∧ u.phases[j]? = some Phase.finished ∧
      Relation.ReflTransGen SchedStep u ⟨0, [Phase.finished, Phase.running, Phase.running,
        Phase.running, Phase.running, Phase.running]⟩) := by
  have hreach : SchedReachable 6 ⟨0, [Phase.running, Phase.running, Phase.running,
      Phase.running, Phase.running, Phase.waiting]⟩ := by
    refine Relation.ReflTransGen.head (SchedStep.acquire (initState 6) 0 (by decide) (by decide)) ?_
    refine Relation.ReflTransGen.head (SchedStep.spawn _ 0 (by decide)) ?_
    refine Relation.ReflTransGen.head (SchedStep.acquire _ 1 (by decide) (by decide)) ?_
    refine Relation.ReflTransGen.head (SchedStep.spawn _ 1 (by decide)) ?_
    refine Relation.ReflTransGen.head (SchedStep.acquire _ 2 (by decide) (by decide)) ?_
    refine Relation.ReflTransGen.head (SchedStep.spawn _ 2 (by decide)) ?_
    refine Relation.ReflTransGen.head (SchedStep.acquire _ 3 (by decide) (by decide)) ?_
    refine Relation.ReflTransGen.head (SchedStep.spawn _ 3 (by decide)) ?_
    refine Relation.ReflTransGen.head (SchedStep.acquire _ 4 (by decide) (by decide)) ?_
    refine Relation.ReflTransGen.head (SchedStep.spawn _ 4 (by decide)) ?_
    exact Relation.ReflTransGen.refl
  have hmain := C3_bounded_concurrency 6 _ hreach
  have htrace : Relation.ReflTransGen SchedStep
      ⟨0, [Phase.running, Phase.running, Phase.running, Phase.running,
        Phase.running, Phase.waiting]⟩
      ⟨0, [Phase.finished, Phase.running, Phase.running, Phase.running,
        Phase.running, Phase.running]⟩ := by
    refine Relation.ReflTransGen.head (SchedStep.finish _ 0 (by decide)) ?_
    refine Relation.ReflTransGen.head (SchedStep.acquire _ 5 (by decide) (by decide)) ?_
    refine Relation.ReflTransGen.head (SchedStep.spawn _ 5 (by decide)) ?_
    exact Relation.ReflTransGen.refl
  exact ⟨hmain.1, hmain.2.2 (by decide) 5 _ (by decide) htrace (by decide)⟩

/-! ## Claim C6 -/

/-- C6: the `timeout` normalization of the registration wrapper, evaluated
on the `display_on` contract.  An absent `timeout`, an explicit `None` and
a positive integer pass validation, but `timeout = 0` — which the claim,
the wrapper docstring and the `display_on` handler body all describe as
"no timeout / disable blanking" — raises `ValueError` instead of being
treated as no timeout: the code rejects every integer `raw <= 0`. -/
theorem C6_timeout_zero_rejected :
    (∃ d, wrapperValidate displayOnContract [] = Except.ok d) ∧
    (∃ d, wrapperValidate displayOnContract [("timeout", Val.vNull)] = Except.ok d) ∧
    (∃ d, wrapperValidate displayOnContract [("timeout", Val.vInt 3)] = Except.ok d) ∧
    (∃ e, wrapperValidate displayOnContract [("timeout", Val.vInt 0)] = Except.error e) :=
  ⟨⟨_, rfl⟩, ⟨_, rfl⟩, ⟨_, rfl⟩, ⟨_, rfl⟩⟩

/-! ## Claim C7 -/

/-- The wrapper of an operation registered with `required=["x"]` raises
`ValueError` on every payload lacking the key `x`, whatever else is
supplied. -/
theorem wrapperValidate_missing_x (payload : Params)
    (hx : (payload.lookup "x").isNone = true) :
    wrapperValidate xRequiredContract payload =
      Except.error "opx: Missing required parameters: x" := by
  simp only [wrapperValidate, xRequiredContract, List.filter_cons, List.filter_nil, hx,
    if_true]
  rfl

/-- Counterexample to C7 as stated: invoking the operation registered with
`required=["x"]` without `x` is answered with HTTP status 500, not 400 —
`make_handler` catches every exception, including the raised
`ValueError`, and returns it as a 500 failure envelope. -/
theorem C7_counterexample :
    statusOf (serve cfgOpx reqMissingX) = 500 ∧
    statusOf (serve cfgOpx reqMissingX) ≠ 400 := by
  constructor
  · rfl
  · intro h
    rw [show statusOf (serve cfgOpx reqMissingX) = 500 from rfl] at h
    cases h

/-- C7 as amended: for an operation registered with `required=["x"]`,
every HTTP invocation whose parameter set lacks the key `x` is answered
with HTTP status 500 carrying the `ValueError` message in the failure
envelope, regardless of which other keys are supplied. -/
theorem C7_missing_required_500 (payload : Params) (impl : String → Params → Val)
    (remote : Option String) (hdrs : List (String × String))
    (hx : (payload.lookup "x").isNone = true) :
    serve ⟨none, [("opx", xRequiredContract)], impl⟩ ⟨remote, hdrs, "/opx", payload⟩ =
      ServeResult.dispatched "opx"
        ⟨500, RespBody.envelope false "opx: Missing required parameters: x"⟩ := by
  show ServeResult.dispatched "opx"
      (routeHandle xRequiredContract (impl "opx") payload) = _
  rw [routeHandle, wrapperValidate_missing_x payload hx]

/-- Witness for C7 as amended: the payload supplying only `y`. -/
theorem C7_missing_required_500_witness :
    serve ⟨none, [("opx", xRequiredContract)], fun _ _ => Val.vNull⟩
      ⟨some "127.0.0.1", [], "/opx", [("y", Val.vStr "1")]⟩ =
      ServeResult.dispatched "opx"
        ⟨500, RespBody.envelope false "opx: Missing required parameters: x"⟩ :=
  C7_missing_required_500 [("y", Val.vStr "1")] (fun _ _ => Val.vNull)
    (some "127.0.0.1") [] rfl

/-! ## Claim C8 -/

/-- Counterexample to C8 as stated: with a bearer token configured, the
request to the protected route `run_command` from a non-loopback address
without an `Authorization` header is answered with HTTP status 401 (the
bearer-token rejection fires before the protected-command check), not
403. -/
theorem C8_counterexample :
    statusOf (serve cfgBearer reqNoAuth) = 401 ∧
    statusOf (serve cfgBearer reqNoAuth) ≠ 403 := by
  constructor
  · rfl
  · intro h
    rw [show statusOf (serve cfgBearer reqNoAuth) = 401 from rfl] at h
    cases h

/-- C8 as amended: when a bearer token is configured, every request to a
protected route from a non-loopback address lacking the `Authorization`
header is answered with HTTP status 401, and the identical request bearing
the correct `Bearer` header reaches the registered handler. -/
theorem C8_missing_header_401 (cfg : ServerCfg) (req : Request)
    (tok name : String) (c : Contract)
    (htok : cfg.bearer = some tok)
    (hroute : resolveRoute cfg req.path = RouteTarget.op name c)
    (hhdr : req.headers.lookup "Authorization" = none)
    (hnl : loopbackAddrs.contains (req.remote.getD "unknown") = false) :
    serve cfg req = ServeResult.authReject ∧
    serve cfg { req with headers := ("Authorization", "Bearer " ++ tok) :: req.headers } =
      ServeResult.dispatched name (routeHandle c (cfg.impl name) req.payload) := by
  have hbne : "Bearer " ++ tok ≠ "" := by
    intro h
    have h2 := congrArg String.length h
    rw [String.length_append] at h2
    have h3 : ("Bearer " : String).length = 7 := rfl
    have h4 : ("" : String).length = 0 := rfl
    omega
  constructor
  · simp only [serve, htok, hhdr]
    rw [if_pos]
    exact fun h => hbne h.symm
  · simp only [serve, htok]
    have hlook : ((("Authorization", "Bearer " ++ tok) :: req.headers).lookup
        "Authorization") = some ("Bearer " ++ tok) := by
      simp [List.lookup]
    rw [hlook]
    rw [if_neg (by simp)]
    simp only [serveAfterAuth]
    rw [show ({ req with headers := ("Authorization", "Bearer " ++ tok) :: req.headers } :
      Request).path = req.path from rfl]
    rw [hroute]
    simp [htok]

/-- Witness for C8 as amended: the concrete bearer configuration with the
non-loopback `run_command` request, with and without the header. -/
theorem C8_missing_header_401_witness :
    serve cfgBearer reqNoAuth = ServeResult.authReject ∧
    serve cfgBearer
        { reqNoAuth with
          headers := ("Authorization", "Bearer " ++ "sekrit") :: reqNoAuth.headers } =
      ServeResult.dispatched "run_command"
        (routeHandle runCommandContract (cfgBearer.impl "run_command") reqNoAuth.payload) :=
  C8_missing_header_401 cfgBearer reqNoAuth "sekrit" "run_command" runCommandContract
    rfl rfl rfl rfl

/-! ## Claim C9 -/

/-- C9: a request to a path with no registered operation is not answered
with the 404 JSON envelope the catch-all `not_found` handler would
produce: the security middleware evaluates `getattr(handler, "cmd_name")`
with no default first, which raises `AttributeError` on `not_found`, so
aiohttp answers with a plain 500 instead.  The `not_found` handler itself
— dead code behind the middleware — does build the claimed 404
envelope. -/
theorem C9_unregistered_path_500 :
    serve cfgNoBearer reqUnknownPath = ServeResult.attrError ∧
    statusOf (serve cfgNoBearer reqUnknownPath) = 500 ∧
    statusOf (serve cfgNoBearer reqUnknownPath) ≠ 404 ∧
    not_found "/nope" = ⟨404, RespBody.envelope false "Endpoint not found: /nope"⟩ := by
  refine ⟨rfl, rfl, ?_, rfl⟩
  intro h
  rw [show statusOf (serve cfgNoBearer reqUnknownPath) = 500 from rfl] at h
  cases h

end HAOSKiosk
